import Mathlib

/-!
Verification of `pympler/process.py` (memory-probe strategies).

The Python module is shallowly embedded: each strategy's `update` method
becomes a function from the current `MemInfo` state and an abstracted OS
environment to `Except PyErr (MemInfo × Bool)`; a Python exception that
would propagate out of `update` is modelled as `Except.error`, and the
returned `Bool` is `update`'s return value.  Python's unbounded integers
are `Int`.
-/

/-- Exceptions that can escape the embedded code. -/
inductive PyErr where
  | valueError
  | indexError
deriving Repr, DecidableEq

/-- Helper turning an `Option` into an `Except`: `none` becomes the given error. -/
def orErr (o : Option α) (e : PyErr) : Except PyErr α :=
  match o with
  | some a => Except.ok a
  | none => Except.error e

/-- Python `str.isspace` characters relevant to `str.split`. -/
def pyIsSpace (c : Char) : Bool :=
  c = ' ' || c = '\t' || c = '\n' || c = '\r' || c = '\x0b' || c = '\x0c'

/-- Split a character list at every separator, keeping empty pieces,
as Python `str.split(sep)` does. -/
def splitKeep (p : Char → Bool) (cur : List Char) : List Char → List (List Char)
  | [] => [cur.reverse]
  | c :: cs => if p c then cur.reverse :: splitKeep p [] cs else splitKeep p (c :: cur) cs

/-- Python `s.split(':')`: split at every colon, keeping empty pieces. -/
def pySplitColon (s : String) : List String :=
  (splitKeep (fun c => c = ':') [] s.toList).map (fun l => String.mk l)

/-- Python `s.split()` with no argument: split on whitespace runs,
dropping empty pieces. -/
def pySplit (s : String) : List String :=
  ((splitKeep pyIsSpace [] s.toList).map (fun l => String.mk l)).filter (fun t => t ≠ "")

/-- Python `s.strip()`: remove leading and trailing whitespace. -/
def pyStrip (s : String) : String :=
  String.mk (((s.toList.dropWhile pyIsSpace).reverse.dropWhile pyIsSpace).reverse)

/-- Accumulate decimal digits; fails on a non-digit character. -/
def parseDigitsAux (acc : Nat) : List Char → Option Nat
  | [] => some acc
  | c :: cs =>
    if '0' ≤ c ∧ c ≤ '9' then parseDigitsAux (acc * 10 + (c.toNat - '0'.toNat)) cs
    else none

/-- A non-empty run of decimal digits, as a natural number. -/
def parseDigits : List Char → Option Nat
  | [] => none
  | l => parseDigitsAux 0 l

/-- Python `int(s)`: optional surrounding whitespace, optional sign, then
decimal digits.  (Underscore digit-grouping is never exercised here.) -/
def pyInt (s : String) : Option Int :=
  match (pyStrip s).toList with
  | '+' :: rest => (parseDigits rest).map (fun n => (n : Int))
  | '-' :: rest => (parseDigits rest).map (fun n => -(n : Int))
  | rest => (parseDigits rest).map (fun n => (n : Int))

/-- The mutable attributes a `_ProcessMemoryInfo` object carries
(`available` is kept separately, since `__init__` derives it from
`update`'s return value). -/
structure MemInfo where
  pid : Int
  rss : Int
  vsz : Int
  pagefaults : Int
  os_specific : List (String × String)
  data_segment : Int
  code_segment : Int
  shared_segment : Int
  stack_segment : Int
deriving Repr, DecidableEq

/-- The zero-initialised state `_ProcessMemoryInfo.__init__` builds before
calling `update`. -/
def initInfo (pid : Int) : MemInfo :=
  { pid := pid, rss := 0, vsz := 0, pagefaults := 0, os_specific := []
    data_segment := 0, code_segment := 0, shared_segment := 0, stack_segment := 0 }

/-- A constructed snapshot: the populated state plus the `available` flag. -/
structure Snapshot where
  info : MemInfo
  available : Bool
deriving Repr, DecidableEq

/-- Embedding of `_ProcessMemoryInfo.update`: the abstract base never yields data. -/
def baseUpdate (st : MemInfo) : MemInfo × Bool := (st, false)

/-- Captured behaviour of the `ps` subprocess: `none` models `OSError` on
launch; otherwise the exit status and the captured stdout. -/
abbrev PsResult := Option (Int × String)

/-- Embedding of `_ProcessMemoryInfoPS.update`: run `ps -p<pid> -o rss,vsz`; on zero
exit status and at least two stdout tokens, the last token is vsz in kB
and the second-to-last is rss in kB.  `int` on a malformed token raises. -/
def psUpdate (st : MemInfo) (env : PsResult) : Except PyErr (MemInfo × Bool) :=
  match env with
  | none => Except.ok (st, false)
  | some (rc, out) =>
    let s := pySplit out
    if rc = 0 ∧ 2 ≤ s.length then do
      let tLast ← orErr s.getLast? PyErr.indexError
      let vszKb ← orErr (pyInt tLast) PyErr.valueError
      let tPrev ← orErr s[s.length - 2]? PyErr.indexError
      let rssKb ← orErr (pyInt tPrev) PyErr.valueError
      Except.ok ({ st with vsz := vszKb * 1024, rss := rssKb * 1024 }, true)
    else
      Except.ok (st, false)

/-- Embedding of `_ProcessMemoryInfoProc.key_map`. -/
def key_map (k : String) : Option String :=
  if k = "VmPeak" then some "Peak virtual memory size"
  else if k = "VmSize" then some "Virtual memory size"
  else if k = "VmLck" then some "Locked memory size"
  else if k = "VmHWM" then some "Peak resident set size"
  else if k = "VmRSS" then some "Resident set size"
  else if k = "VmStk" then some "Size of stack segment"
  else if k = "VmData" then some "Size of data segment"
  else if k = "VmExe" then some "Size of code segment"
  else if k = "VmLib" then some "Shared library code size"
  else if k = "VmPTE" then some "Page table entries size"
  else none

/-- The local helper `size_in_bytes = lambda x: int(x.split()[0]) * 1024`. -/
def size_in_bytes (x : String) : Except PyErr Int := do
  let t ← orErr (pySplit x).head? PyErr.indexError
  let n ← orErr (pyInt t) PyErr.valueError
  Except.ok (n * 1024)

/-- One iteration of the `for entry in status.readlines()` loop:
`key, value = entry.split(':')` (exactly two pieces or `ValueError`),
segment-field assignment, and the `os_specific` append. -/
def applyStatusLine (st : MemInfo) (entry : String) : Except PyErr MemInfo := do
  match pySplitColon entry with
  | [key, value] => do
    let st ←
      if key = "VmData" then do
        let n ← size_in_bytes value; Except.ok { st with data_segment := n }
      else if key = "VmExe" then do
        let n ← size_in_bytes value; Except.ok { st with code_segment := n }
      else if key = "VmLib" then do
        let n ← size_in_bytes value; Except.ok { st with shared_segment := n }
      else if key = "VmStk" then do
        let n ← size_in_bytes value; Except.ok { st with stack_segment := n }
      else Except.ok st
    match key_map key with
    | some label => Except.ok { st with os_specific := st.os_specific ++ [(label, pyStrip value)] }
    | none => Except.ok st
  | _ => Except.error PyErr.valueError

/-- Contents of the two `/proc/self` pseudo-files the filesystem strategy
reads: the stat line and the status file's lines (as `readlines` yields). -/
structure ProcFs where
  stat : String
  statusLines : List String
deriving Repr, DecidableEq

/-- Embedding of `_ProcessMemoryInfoProc.update`: `none` models `IOError` when opening
either file (swallowed, returning false); otherwise parse the stat fields
(any malformed field raises) and fold over the status lines. -/
def procUpdate (pagesize : Int) (st : MemInfo) (env : Option ProcFs) :
    Except PyErr (MemInfo × Bool) :=
  match env with
  | none => Except.ok (st, false)
  | some fs => do
    let stats := pySplit fs.stat
    let t22 ← orErr stats[22]? PyErr.indexError
    let vsz ← orErr (pyInt t22) PyErr.valueError
    let t23 ← orErr stats[23]? PyErr.indexError
    let rssPages ← orErr (pyInt t23) PyErr.valueError
    let t11 ← orErr stats[11]? PyErr.indexError
    let pf ← orErr (pyInt t11) PyErr.valueError
    let st := { st with vsz := vsz, rss := rssPages * pagesize, pagefaults := pf }
    let st ← fs.statusLines.foldlM applyStatusLine st
    Except.ok (st, true)

/-- The fields of `getrusage(RUSAGE_SELF)` the resource strategy reads. -/
structure Rusage where
  ru_maxrss : Int
  ru_idrss : Int
  ru_ixrss : Int
  ru_isrss : Int
  ru_majflt : Int
deriving Repr, DecidableEq

/-- Embedding of `_ProcessMemoryInfoResource.update`: populate the fields from
`getrusage`, then report success iff the resulting rss is nonzero. -/
def resourceUpdate (st : MemInfo) (u : Rusage) : MemInfo × Bool :=
  let rss := u.ru_maxrss * 1024
  let data := u.ru_idrss * 1024
  let shared := u.ru_ixrss * 1024
  let stack := u.ru_isrss * 1024
  ({ st with rss := rss, data_segment := data, shared_segment := shared,
             stack_segment := stack, vsz := data + shared + stack,
             pagefaults := u.ru_majflt },
   rss != 0)

/-- The dictionary `GetProcessMemoryInfo` returns (the fields read). -/
structure Win32Info where
  pagefileUsage : Int
  workingSetSize : Int
  pageFaultCount : Int
deriving Repr, DecidableEq

/-- Embedding of `_ProcessMemoryInfoWin32.update`: store the three queried values and
always report success. -/
def win32Update (st : MemInfo) (w : Win32Info) : MemInfo × Bool :=
  ({ st with vsz := w.pagefileUsage, rss := w.workingSetSize,
             pagefaults := w.pageFaultCount }, true)

/-- The strategy classes a snapshot can be produced by. -/
inductive Strategy where
  | base
  | proc
  | ps
  | resource
  | win32
deriving Repr, DecidableEq

/-- The OS responses visible to the module, assumed stable for the run:
the `/proc` files, the page size, the `ps` invocation's outcome, whether
the `resource` module imports (plus what `getrusage` would report), and
whether `pywin32` imports (plus what the Win32 API would report). -/
structure Env where
  procFs : Option ProcFs
  pagesize : Int
  ps : PsResult
  hasResource : Bool
  rusage : Rusage
  hasWin32 : Bool
  win32 : Win32Info
deriving Repr, DecidableEq

/-- Dispatch `update` through the bound strategy class. -/
def stratUpdate (strat : Strategy) (env : Env) (st : MemInfo) :
    Except PyErr (MemInfo × Bool) :=
  match strat with
  | Strategy.base => Except.ok (baseUpdate st)
  | Strategy.proc => procUpdate env.pagesize st env.procFs
  | Strategy.ps => psUpdate st env.ps
  | Strategy.resource => Except.ok (resourceUpdate st env.rusage)
  | Strategy.win32 => Except.ok (win32Update st env.win32)

/-- Module-level strategy selection at import time: when the `resource`
module imports, probe the filesystem, `ps` and resource strategies in
order (`ProcessMemoryInfo` keeps its base-class default when all fail);
when it does not, bind the Win32 strategy iff `pywin32` imports. -/
def selectStrategy (env : Env) (pid : Int) : Except PyErr Strategy :=
  if env.hasResource then do
    let (_, b1) ← procUpdate env.pagesize (initInfo pid) env.procFs
    if b1 then Except.ok Strategy.proc
    else do
      let (_, b2) ← psUpdate (initInfo pid) env.ps
      if b2 then Except.ok Strategy.ps
      else if (resourceUpdate (initInfo pid) env.rusage).2 then Except.ok Strategy.resource
      else Except.ok Strategy.base
  else if env.hasWin32 then Except.ok Strategy.win32
  else Except.ok Strategy.base

/-- Embedding of `ProcessMemoryInfo()`: build the zero state, run `update` once, and
record its return value as `available`. -/
def mkSnapshot (strat : Strategy) (env : Env) (pid : Int) : Except PyErr Snapshot := do
  let (i, b) ← stratUpdate strat env (initInfo pid)
  Except.ok { info := i, available := b }

/-- Embedding of `is_available()`, i.e. `ProcessMemoryInfo().update()`: construct a
snapshot (running `update` inside `__init__`) and call `update` again on
it, returning the second call's boolean. -/
def isAvailable (strat : Strategy) (env : Env) (pid : Int) : Except PyErr Bool := do
  let (i1, _) ← stratUpdate strat env (initInfo pid)
  let (_, b2) ← stratUpdate strat env i1
  Except.ok b2

/-- Embedding of `is_available()` together with the module binding after the call: the
function body only reads the `ProcessMemoryInfo` global and never
reassigns it, so the binding it leaves behind is the one it was given. -/
def isAvailableCall (strat : Strategy) (env : Env) (pid : Int) :
    Except PyErr (Bool × Strategy) :=
  (isAvailable strat env pid).map (fun b => (b, strat))

theorem except_bind_ok (a : α) (f : α → Except PyErr β) :
    (Except.ok a >>= f) = f a := rfl

theorem except_bind_err (e : PyErr) (f : α → Except PyErr β) :
    ((Except.error e : Except PyErr α) >>= f) = Except.error e := rfl

/-- Combined behaviour of the status-line loop body under two states:
errors depend only on the line, and a successful body never touches
`pid`, `vsz`, `rss` or `pagefaults` and succeeds from any state. -/
theorem applyStatusLine_cases (st st' : MemInfo) (e : String) :
    (∀ err, applyStatusLine st e = Except.error err →
      applyStatusLine st' e = Except.error err)
    ∧ (∀ r, applyStatusLine st e = Except.ok r →
        (r.pid = st.pid ∧ r.vsz = st.vsz ∧ r.rss = st.rss ∧
         r.pagefaults = st.pagefaults) ∧
        ∃ r', applyStatusLine st' e = Except.ok r') := by
  unfold applyStatusLine
  rcases hsplit : pySplitColon e with _ | ⟨key, _ | ⟨value, _ | ⟨c, rest⟩⟩⟩
  · simp
  · simp
  · simp only [hsplit]
    by_cases h1 : key = "VmData"
    · subst h1
      rcases hsb : size_in_bytes value with err | n <;>
        simp [hsb, key_map, except_bind_ok, except_bind_err]
    · by_cases h2 : key = "VmExe"
      · subst h2
        rcases hsb : size_in_bytes value with err | n <;>
          simp [hsb, key_map, except_bind_ok, except_bind_err]
      · by_cases h3 : key = "VmLib"
        · subst h3
          rcases hsb : size_in_bytes value with err | n <;>
            simp [hsb, key_map, except_bind_ok, except_bind_err]
        · by_cases h4 : key = "VmStk"
          · subst h4
            rcases hsb : size_in_bytes value with err | n <;>
              simp [hsb, key_map, except_bind_ok, except_bind_err]
          · rcases hkm : key_map key with _ | label <;>
              simp [h1, h2, h3, h4, hkm, except_bind_ok]
  · simp

/-- The status-line fold inherits the loop body's behaviour: errors
depend only on the lines, and success preserves `pid`, `vsz`, `rss` and
`pagefaults` and is state-independent. -/
theorem foldStatus_cases (ls : List String) : ∀ (st st' : MemInfo),
    (∀ err, List.foldlM applyStatusLine st ls = Except.error err →
      List.foldlM applyStatusLine st' ls = Except.error err)
    ∧ (∀ r, List.foldlM applyStatusLine st ls = Except.ok r →
        (r.pid = st.pid ∧ r.vsz = st.vsz ∧ r.rss = st.rss ∧
         r.pagefaults = st.pagefaults) ∧
        ∃ r', List.foldlM applyStatusLine st' ls = Except.ok r') := by
  induction ls with
  | nil =>
    intro st st'
    constructor
    · intro err h
      simp only [List.foldlM_nil] at h
      exact Except.noConfusion h
    · intro r h
      simp only [List.foldlM_nil] at h
      cases h
      exact ⟨⟨rfl, rfl, rfl, rfl⟩, st', rfl⟩
  | cons e ls ih =>
    intro st st'
    constructor
    · intro err h
      rcases ha : applyStatusLine st e with err0 | s2
      · rw [List.foldlM_cons, ha, except_bind_err] at h
        injection h with h0
        subst h0
        rw [List.foldlM_cons, (applyStatusLine_cases st st' e).1 err0 ha,
          except_bind_err]
      · rw [List.foldlM_cons, ha, except_bind_ok] at h
        obtain ⟨_, s2', ha'⟩ := (applyStatusLine_cases st st' e).2 s2 ha
        rw [List.foldlM_cons, ha', except_bind_ok]
        exact (ih s2 s2').1 err h
    · intro r h
      rcases ha : applyStatusLine st e with err0 | s2
      · rw [List.foldlM_cons, ha, except_bind_err] at h
        cases h
      · rw [List.foldlM_cons, ha, except_bind_ok] at h
        obtain ⟨hfields, s2', ha'⟩ := (applyStatusLine_cases st st' e).2 s2 ha
        obtain ⟨hf2, r', h'⟩ := (ih s2 s2').2 r h
        refine ⟨⟨?_, ?_, ?_, ?_⟩, r', ?_⟩
        · rw [hf2.1, hfields.1]
        · rw [hf2.2.1, hfields.2.1]
        · rw [hf2.2.2.1, hfields.2.2.1]
        · rw [hf2.2.2.2, hfields.2.2.2]
        · rw [List.foldlM_cons, ha', except_bind_ok]
          exact h'

/-- The boolean result of `update` (or the exception it raises) is the same
from any starting state, under every strategy. -/
theorem stratUpdate_snd_indep (strat : Strategy) (env : Env) (st st' : MemInfo) :
    (stratUpdate strat env st).map Prod.snd = (stratUpdate strat env st').map Prod.snd := by
  cases strat with
  | base => rfl
  | resource => rfl
  | win32 => rfl
  | ps =>
    simp only [stratUpdate]
    rcases hps : env.ps with _ | ⟨rc, out⟩
    · rfl
    · simp only [psUpdate]
      by_cases hc : rc = 0 ∧ 2 ≤ (pySplit out).length
      · rw [if_pos hc, if_pos hc]
        rcases hL : (pySplit out).getLast? with _ | tL
        · rfl
        · simp only [orErr, except_bind_ok]
          rcases hV : pyInt tL with _ | v
          · rfl
          · simp only [orErr, except_bind_ok]
            rcases hP : (pySplit out)[(pySplit out).length - 2]? with _ | tP
            · rfl
            · simp only [orErr, except_bind_ok]
              rcases hR : pyInt tP with _ | r <;> rfl
      · rw [if_neg hc, if_neg hc]
        rfl
  | proc =>
    simp only [stratUpdate]
    rcases hfs : env.procFs with _ | fs
    · rfl
    · simp only [procUpdate]
      rcases h22 : (pySplit fs.stat)[22]? with _ | t22
      · rfl
      · simp only [orErr, except_bind_ok]
        rcases hv : pyInt t22 with _ | v
        · rfl
        · simp only [orErr, except_bind_ok]
          rcases h23 : (pySplit fs.stat)[23]? with _ | t23
          · rfl
          · simp only [orErr, except_bind_ok]
            rcases hr : pyInt t23 with _ | r
            · rfl
            · simp only [orErr, except_bind_ok]
              rcases h11 : (pySplit fs.stat)[11]? with _ | t11
              · rfl
              · simp only [orErr, except_bind_ok]
                rcases hf : pyInt t11 with _ | f
                · rfl
                · simp only [orErr, except_bind_ok]
                  rcases hfold : List.foldlM applyStatusLine
                      { st with vsz := v, rss := r * env.pagesize, pagefaults := f }
                      fs.statusLines with err | s2
                  · rw [(foldStatus_cases fs.statusLines { st with vsz := v, rss := r * env.pagesize, pagefaults := f } { st' with vsz := v, rss := r * env.pagesize, pagefaults := f }).1 err hfold]
                  · obtain ⟨_, s2', h'⟩ := (foldStatus_cases fs.statusLines { st with vsz := v, rss := r * env.pagesize, pagefaults := f } { st' with vsz := v, rss := r * env.pagesize, pagefaults := f }).2 s2 hfold
                    rw [h']
                    rfl

theorem okPair_inj {a c : MemInfo} {b d : Bool}
    (h : (Except.ok (a, b) : Except PyErr (MemInfo × Bool)) = Except.ok (c, d)) :
    a = c ∧ b = d := by
  injection h with h'
  exact ⟨congrArg Prod.fst h', congrArg Prod.snd h'⟩

/-- A successful `ps` update only ever writes `vsz` and `rss`, and a
false return leaves the state untouched. -/
theorem psUpdate_ok_cases {st0 st : MemInfo} {e : PsResult} {b : Bool}
    (h : psUpdate st0 e = Except.ok (st, b)) :
    st.pid = st0.pid ∧ st.pagefaults = st0.pagefaults ∧
    st.data_segment = st0.data_segment ∧ st.code_segment = st0.code_segment ∧
    st.shared_segment = st0.shared_segment ∧ st.stack_segment = st0.stack_segment ∧
    st.os_specific = st0.os_specific ∧
    (b = false → st = st0) := by
  rcases e with _ | ⟨rc, outp⟩
  · simp only [psUpdate] at h
    obtain ⟨h1, h2⟩ := okPair_inj h
    subst h1
    subst h2
    exact ⟨rfl, rfl, rfl, rfl, rfl, rfl, rfl, fun _ => rfl⟩
  · simp only [psUpdate] at h
    by_cases hc : rc = 0 ∧ 2 ≤ (pySplit outp).length
    · rw [if_pos hc] at h
      rcases hL : (pySplit outp).getLast? with _ | tL <;> rw [hL] at h <;>
        simp only [orErr, except_bind_ok, except_bind_err] at h
      · exact Except.noConfusion h
      · rcases hV : pyInt tL with _ | v <;> rw [hV] at h <;>
          simp only [orErr, except_bind_ok, except_bind_err] at h
        · exact Except.noConfusion h
        · rcases hP : (pySplit outp)[(pySplit outp).length - 2]? with _ | tP <;>
            rw [hP] at h <;>
            simp only [orErr, except_bind_ok, except_bind_err] at h
          · exact Except.noConfusion h
          · rcases hR : pyInt tP with _ | r <;> rw [hR] at h <;>
              simp only [orErr, except_bind_ok, except_bind_err] at h
            · exact Except.noConfusion h
            · obtain ⟨h1, h2⟩ := okPair_inj h
              subst h1
              subst h2
              exact ⟨rfl, rfl, rfl, rfl, rfl, rfl, rfl,
                fun hb => Bool.noConfusion hb⟩
    · rw [if_neg hc] at h
      obtain ⟨h1, h2⟩ := okPair_inj h
      subst h1
      subst h2
      exact ⟨rfl, rfl, rfl, rfl, rfl, rfl, rfl, fun _ => rfl⟩

/-- When both `/proc` files open, the filesystem update either raises or
returns `true`; a successful run keeps `pid`. -/
theorem procUpdate_some_ok {pg : Int} {st0 : MemInfo} {fs : ProcFs}
    {p : MemInfo × Bool} (h : procUpdate pg st0 (some fs) = Except.ok p) :
    p.2 = true ∧ p.1.pid = st0.pid := by
  simp only [procUpdate] at h
  rcases h22 : (pySplit fs.stat)[22]? with _ | t22 <;> rw [h22] at h <;>
    simp only [orErr, except_bind_ok, except_bind_err] at h
  · exact Except.noConfusion h
  · rcases hv : pyInt t22 with _ | v <;> rw [hv] at h <;>
      simp only [orErr, except_bind_ok, except_bind_err] at h
    · exact Except.noConfusion h
    · rcases h23 : (pySplit fs.stat)[23]? with _ | t23 <;> rw [h23] at h <;>
        simp only [orErr, except_bind_ok, except_bind_err] at h
      · exact Except.noConfusion h
      · rcases hr : pyInt t23 with _ | r <;> rw [hr] at h <;>
          simp only [orErr, except_bind_ok, except_bind_err] at h
        · exact Except.noConfusion h
        · rcases h11 : (pySplit fs.stat)[11]? with _ | t11 <;> rw [h11] at h <;>
            simp only [orErr, except_bind_ok, except_bind_err] at h
          · exact Except.noConfusion h
          · rcases hf : pyInt t11 with _ | f <;> rw [hf] at h <;>
              simp only [orErr, except_bind_ok, except_bind_err] at h
            · exact Except.noConfusion h
            · rcases hfold : List.foldlM applyStatusLine
                  { st0 with vsz := v, rss := r * pg, pagefaults := f }
                  fs.statusLines with err | s2 <;> rw [hfold] at h <;>
                simp only [except_bind_ok, except_bind_err] at h
              · exact Except.noConfusion h
              · obtain ⟨h1, h2⟩ := okPair_inj h.symm
                refine ⟨h2, ?_⟩
                rw [h1]
                exact ((foldStatus_cases fs.statusLines
                  { st0 with vsz := v, rss := r * pg, pagefaults := f }
                  { st0 with vsz := v, rss := r * pg, pagefaults := f }).2
                  s2 hfold).1.1

/-- C4: the resource strategy's `update()` sets `rss` to max-RSS × 1024,
the data/shared/stack segment fields to the corresponding accounting
fields × 1024, `vsz` to the sum of those three segment fields, and
`pagefaults` to the major-fault counter, and it returns true iff the
resulting `rss` is nonzero. -/
theorem claim_c4 (st : MemInfo) (u : Rusage) :
    (resourceUpdate st u).1.rss = u.ru_maxrss * 1024 ∧
    (resourceUpdate st u).1.data_segment = u.ru_idrss * 1024 ∧
    (resourceUpdate st u).1.shared_segment = u.ru_ixrss * 1024 ∧
    (resourceUpdate st u).1.stack_segment = u.ru_isrss * 1024 ∧
    (resourceUpdate st u).1.vsz =
      (resourceUpdate st u).1.data_segment +
        (resourceUpdate st u).1.shared_segment +
        (resourceUpdate st u).1.stack_segment ∧
    (resourceUpdate st u).1.pagefaults = u.ru_majflt ∧
    ((resourceUpdate st u).2 = true ↔ (resourceUpdate st u).1.rss ≠ 0) := by
  refine ⟨rfl, rfl, rfl, rfl, rfl, rfl, ?_⟩
  simp [resourceUpdate, bne_iff_ne]

/-- C5: for a launched `ps` with zero exit status and at least two stdout
tokens, `update()` stores the last token × 1024 as `vsz` and the
second-to-last token × 1024 as `rss`, and returns true. -/
theorem claim_c5 (pid rc : Int) (out : String) (vk rk : Int) (tv tr : String)
    (hrc : rc = 0) (hlen : 2 ≤ (pySplit out).length)
    (hlast : (pySplit out).getLast? = some tv) (hv : pyInt tv = some vk)
    (hprev : (pySplit out)[(pySplit out).length - 2]? = some tr)
    (hr : pyInt tr = some rk) :
    psUpdate (initInfo pid) (some (rc, out)) =
      Except.ok ({ initInfo pid with vsz := vk * 1024, rss := rk * 1024 }, true) := by
  simp only [psUpdate]
  rw [if_pos ⟨hrc, hlen⟩, hlast]
  simp only [orErr, except_bind_ok]
  rw [hv]
  simp only [orErr, except_bind_ok]
  rw [hprev]
  simp only [orErr, except_bind_ok]
  rw [hr]
  simp only [orErr, except_bind_ok]

theorem claim_c5_witness :
    psUpdate (initInfo 3) (some (0, "  1024  2048")) =
      Except.ok ({ initInfo 3 with vsz := 2048 * 1024, rss := 1024 * 1024 }, true) :=
  claim_c5 3 0 "  1024  2048" 2048 1024 "2048" "1024" rfl (by decide)
    (by decide) (by decide) (by decide) (by decide)

/-- C6 counterexample: with a launched process, zero exit status and two
stdout tokens that are not numeric, the `ps` strategy's `update()` raises
`ValueError` (from `int()`) instead of swallowing the malformed output
and returning false. -/
theorem claim_c6_counterexample :
    psUpdate (initInfo 1) (some (0, " abc def ")) =
      Except.error PyErr.valueError := rfl

/-- C6 (amended): a launch failure, a nonzero exit status, or fewer than
two stdout tokens are swallowed and `update()` returns false; but a
non-numeric token among the last two makes `int()` raise a `ValueError`
that propagates out of `update()`. -/
theorem claim_c6_amended (st : MemInfo) (rc : Int) (out : String) :
    psUpdate st none = Except.ok (st, false)
    ∧ (rc ≠ 0 → psUpdate st (some (rc, out)) = Except.ok (st, false))
    ∧ ((pySplit out).length < 2 → psUpdate st (some (rc, out)) = Except.ok (st, false))
    ∧ (∀ t, rc = 0 → 2 ≤ (pySplit out).length → (pySplit out).getLast? = some t →
        pyInt t = none →
        psUpdate st (some (rc, out)) = Except.error PyErr.valueError)
    ∧ (∀ tL t, rc = 0 → 2 ≤ (pySplit out).length → (pySplit out).getLast? = some tL →
        (pySplit out)[(pySplit out).length - 2]? = some t → pyInt t = none →
        psUpdate st (some (rc, out)) = Except.error PyErr.valueError) := by
  refine ⟨rfl, ?_, ?_, ?_, ?_⟩
  · intro h
    simp only [psUpdate]
    rw [if_neg (fun hc => h hc.1)]
  · intro h
    simp only [psUpdate]
    rw [if_neg (fun hc => absurd hc.2 (by omega))]
  · intro t h0 hlen hlast hint
    simp only [psUpdate]
    rw [if_pos ⟨h0, hlen⟩, hlast]
    simp only [orErr, except_bind_ok]
    rw [hint]
    rfl
  · intro tL t h0 hlen hlast hprev hint
    simp only [psUpdate]
    rw [if_pos ⟨h0, hlen⟩, hlast]
    simp only [orErr, except_bind_ok]
    rcases hV : pyInt tL with _ | v
    · rfl
    · simp only [orErr, except_bind_ok]
      rw [hprev]
      simp only [orErr, except_bind_ok]
      rw [hint]
      rfl

theorem claim_c6_witness :
    psUpdate (initInfo 1) (some (1, "2 3")) = Except.ok (initInfo 1, false) :=
  (claim_c6_amended (initInfo 1) 1 "2 3").2.1 (by decide)

/-- C10: with zero exit status and at least two tokens, the `ps`
strategy's result depends only on the last two whitespace-separated
stdout tokens; any preceding tokens (e.g. a header row) are ignored. -/
theorem claim_c10 (st : MemInfo) (rc : Int) (out1 out2 : String) (hrc : rc = 0)
    (h1 : 2 ≤ (pySplit out1).length) (h2 : 2 ≤ (pySplit out2).length)
    (hlast : (pySplit out1).getLast? = (pySplit out2).getLast?)
    (hprev : (pySplit out1)[(pySplit out1).length - 2]? =
      (pySplit out2)[(pySplit out2).length - 2]?) :
    psUpdate st (some (rc, out1)) = psUpdate st (some (rc, out2)) := by
  simp only [psUpdate]
  rw [if_pos ⟨hrc, h1⟩, if_pos ⟨hrc, h2⟩, hlast, hprev]

theorem claim_c10_witness :
    psUpdate (initInfo 1) (some (0, " RSS VSZ 10 20")) =
      psUpdate (initInfo 1) (some (0, "10 20")) :=
  claim_c10 (initInfo 1) 0 " RSS VSZ 10 20" "10 20" rfl (by decide) (by decide)
    (by decide) (by decide)

/-- C1 counterexample: the resource strategy's `update()` can return
false (max-RSS = 0) while having written nonzero `data_segment`, `vsz`
and `pagefaults`, so `available == false` does not force all numeric
fields to zero. -/
theorem claim_c1_counterexample :
    stratUpdate Strategy.resource
        { procFs := none, pagesize := 4096, ps := none, hasResource := true, rusage := { ru_maxrss := 0, ru_idrss := 1, ru_ixrss := 0, ru_isrss := 0, ru_majflt := 7 }, hasWin32 := false, win32 := { pagefileUsage := 0, workingSetSize := 0, pageFaultCount := 0 } }
        (initInfo 1) =
      Except.ok ({ initInfo 1 with vsz := 1024, data_segment := 1024, pagefaults := 7 }, false)
    ∧ ({ initInfo 1 with vsz := 1024, data_segment := 1024, pagefaults := 7 } : MemInfo).data_segment ≠ 0 :=
  ⟨rfl, by decide⟩

/-- C1 (amended): whenever `update()` returns false on a freshly
initialised snapshot, `rss` is 0, and for every strategy except resource
accounting the whole state is still at its zero defaults; the resource
strategy can return false having written nonzero segment fields, `vsz`
and `pagefaults`. -/
theorem claim_c1_amended (strat : Strategy) (env : Env) (pid : Int) (st : MemInfo)
    (h : stratUpdate strat env (initInfo pid) = Except.ok (st, false)) :
    st.rss = 0 ∧ (strat ≠ Strategy.resource → st = initInfo pid) := by
  cases strat with
  | base =>
    simp only [stratUpdate, baseUpdate] at h
    obtain ⟨h1, _⟩ := okPair_inj h
    subst h1
    exact ⟨rfl, fun _ => rfl⟩
  | proc =>
    simp only [stratUpdate] at h
    rcases hfs : env.procFs with _ | fs <;> rw [hfs] at h
    · simp only [procUpdate] at h
      obtain ⟨h1, _⟩ := okPair_inj h
      subst h1
      exact ⟨rfl, fun _ => rfl⟩
    · exact absurd (procUpdate_some_ok h).1 (by simp)
  | ps =>
    simp only [stratUpdate] at h
    have hc := psUpdate_ok_cases h
    rw [hc.2.2.2.2.2.2.2 rfl]
    exact ⟨rfl, fun _ => rfl⟩
  | resource =>
    simp only [stratUpdate, resourceUpdate] at h
    obtain ⟨h1, h2⟩ := okPair_inj h
    subst h1
    refine ⟨?_, fun hne => absurd rfl hne⟩
    have h3 : (env.rusage.ru_maxrss * 1024 != 0) = false := h2
    simpa [bne_eq_false_iff_eq] using h3
  | win32 =>
    simp only [stratUpdate, win32Update] at h
    obtain ⟨_, h2⟩ := okPair_inj h
    exact Bool.noConfusion h2

theorem claim_c1_witness :
    (initInfo 2).rss = 0 ∧
      (Strategy.ps ≠ Strategy.resource → initInfo 2 = initInfo 2) :=
  claim_c1_amended Strategy.ps
    { procFs := none, pagesize := 4096, ps := none, hasResource := true, rusage := { ru_maxrss := 0, ru_idrss := 0, ru_ixrss := 0, ru_isrss := 0, ru_majflt := 0 }, hasWin32 := false, win32 := { pagefileUsage := 0, workingSetSize := 0, pageFaultCount := 0 } }
    2 (initInfo 2) rfl

/-- C8: in the filesystem strategy only failure to open the sources is
converted into a false return; once the files open, `update()` never
returns false — a non-numeric 23rd stat field raises `ValueError`, and a
status line that does not split into exactly one key and one value at a
colon makes the loop body raise `ValueError`. -/
theorem claim_c8 (pg : Int) (st0 : MemInfo) :
    procUpdate pg st0 none = Except.ok (st0, false)
    ∧ (∀ fs p, procUpdate pg st0 (some fs) = Except.ok p → p.2 = true)
    ∧ (∀ stat lines t22, (pySplit stat)[22]? = some t22 → pyInt t22 = none →
        procUpdate pg st0 (some { stat := stat, statusLines := lines }) =
          Except.error PyErr.valueError)
    ∧ (∀ l, (pySplitColon l).length ≠ 2 →
        applyStatusLine st0 l = Except.error PyErr.valueError) := by
  refine ⟨rfl, ?_, ?_, ?_⟩
  · intro fs p h
    exact (procUpdate_some_ok h).1
  · intro stat lines t22 h22 hnone
    simp only [procUpdate]
    rw [h22]
    simp only [orErr, except_bind_ok]
    rw [hnone]
    rfl
  · intro l hlen
    rcases hsplit : pySplitColon l with _ | ⟨k, _ | ⟨v', _ | ⟨c, rest⟩⟩⟩
    · simp [applyStatusLine, hsplit]
    · simp [applyStatusLine, hsplit]
    · rw [hsplit] at hlen
      simp at hlen
    · simp [applyStatusLine, hsplit]

theorem claim_c8_witness :
    procUpdate 4096 (initInfo 1)
        (some { stat := "0 1 2 3 4 5 6 7 8 9 10 11 12 13 14 15 16 17 18 19 20 21 x 23", statusLines := [] }) =
      Except.error PyErr.valueError :=
  (claim_c8 4096 (initInfo 1)).2.2.1
    "0 1 2 3 4 5 6 7 8 9 10 11 12 13 14 15 16 17 18 19 20 21 x 23" [] "x"
    (by decide) (by decide)

/-- C9: no strategy's `update()` ever modifies `pid`, and the `ps` and
Win32 strategies never modify the four segment fields, which therefore
stay 0 in every snapshot those strategies produce. -/
theorem claim_c9 (strat : Strategy) (env : Env) :
    (∀ st r b, stratUpdate strat env st = Except.ok (r, b) → r.pid = st.pid)
    ∧ ((strat = Strategy.ps ∨ strat = Strategy.win32) →
        (∀ st r b, stratUpdate strat env st = Except.ok (r, b) →
          r.data_segment = st.data_segment ∧ r.code_segment = st.code_segment ∧
          r.shared_segment = st.shared_segment ∧ r.stack_segment = st.stack_segment)
        ∧ (∀ pid s, mkSnapshot strat env pid = Except.ok s →
            s.info.data_segment = 0 ∧ s.info.code_segment = 0 ∧
            s.info.shared_segment = 0 ∧ s.info.stack_segment = 0)) := by
  constructor
  · intro st r b h
    cases strat with
    | base =>
      obtain ⟨h1, _⟩ := okPair_inj h
      rw [← h1]
    | proc =>
      simp only [stratUpdate] at h
      rcases hfs : env.procFs with _ | fs <;> rw [hfs] at h
      · obtain ⟨h1, _⟩ := okPair_inj h
        rw [← h1]
      · exact (procUpdate_some_ok (p := (r, b)) h).2
    | ps =>
      simp only [stratUpdate] at h
      exact (psUpdate_ok_cases h).1
    | resource =>
      obtain ⟨h1, _⟩ := okPair_inj h
      rw [← h1]
    | win32 =>
      obtain ⟨h1, _⟩ := okPair_inj h
      rw [← h1]
  · intro hsw
    constructor
    · intro st r b h
      rcases hsw with rfl | rfl
      · simp only [stratUpdate] at h
        have hc := psUpdate_ok_cases h
        exact ⟨hc.2.2.1, hc.2.2.2.1, hc.2.2.2.2.1, hc.2.2.2.2.2.1⟩
      · obtain ⟨h1, _⟩ := okPair_inj h
        rw [← h1]
        exact ⟨rfl, rfl, rfl, rfl⟩
    · intro pid s h
      rcases hu : stratUpdate strat env (initInfo pid) with err | ⟨i, b⟩ <;>
        simp only [mkSnapshot, hu, except_bind_ok, except_bind_err] at h
      · exact Except.noConfusion h
      · injection h with h'
        rcases hsw with rfl | rfl
        · simp only [stratUpdate] at hu
          have hc := psUpdate_ok_cases hu
          rw [← h']
          exact ⟨hc.2.2.1, hc.2.2.2.1, hc.2.2.2.2.1, hc.2.2.2.2.2.1⟩
        · rw [← h']
          simp only [stratUpdate] at hu
          obtain ⟨h2, _⟩ := okPair_inj hu
          rw [← h2]
          exact ⟨rfl, rfl, rfl, rfl⟩

theorem claim_c9_witness :
    ({ initInfo 1 with vsz := 20 * 1024, rss := 10 * 1024 } : MemInfo).data_segment = 0 ∧
    ({ initInfo 1 with vsz := 20 * 1024, rss := 10 * 1024 } : MemInfo).code_segment = 0 ∧
    ({ initInfo 1 with vsz := 20 * 1024, rss := 10 * 1024 } : MemInfo).shared_segment = 0 ∧
    ({ initInfo 1 with vsz := 20 * 1024, rss := 10 * 1024 } : MemInfo).stack_segment = 0 :=
  ((claim_c9 Strategy.ps
      { procFs := none, pagesize := 4096, ps := some (0, "10 20"), hasResource := true, rusage := { ru_maxrss := 0, ru_idrss := 0, ru_ixrss := 0, ru_isrss := 0, ru_majflt := 0 }, hasWin32 := false, win32 := { pagefileUsage := 0, workingSetSize := 0, pageFaultCount := 0 } }).2
    (Or.inl rfl)).2 1
    { info := { initInfo 1 with vsz := 20 * 1024, rss := 10 * 1024 }, available := true }
    rfl

/-- C2: when the `resource` module imports, module initialisation binds
the first strategy in the order (filesystem, `ps`, resource accounting)
whose probe `update()` succeeds, keeping the abstract base class when all
fail; the Win32 strategy is bound (iff `pywin32` imports) only when the
`resource` module is unavailable; and the base strategy's `update()`
always returns false leaving the state untouched. -/
theorem claim_c2 (env : Env) (pid : Int) (st i1 i2 : MemInfo) (b1 b2 : Bool)
    (hproc : procUpdate env.pagesize (initInfo pid) env.procFs = Except.ok (i1, b1))
    (hps : psUpdate (initInfo pid) env.ps = Except.ok (i2, b2)) :
    (env.hasResource = true →
      selectStrategy env pid =
        Except.ok (if b1 then Strategy.proc else if b2 then Strategy.ps
          else if (resourceUpdate (initInfo pid) env.rusage).2 then Strategy.resource
          else Strategy.base))
    ∧ (env.hasResource = false →
        selectStrategy env pid =
          Except.ok (if env.hasWin32 then Strategy.win32 else Strategy.base))
    ∧ stratUpdate Strategy.base env st = Except.ok (st, false) := by
  refine ⟨?_, ?_, rfl⟩
  · intro hr
    cases b1 <;> cases b2 <;>
      (simp [selectStrategy, hr, hproc, hps, except_bind_ok];
        try (split <;> rfl))
  · intro hr
    rcases hw : env.hasWin32 <;> simp [selectStrategy, hr, hw]

theorem claim_c2_witness :
    selectStrategy
        { procFs := none, pagesize := 4096, ps := none, hasResource := true, rusage := { ru_maxrss := 5, ru_idrss := 0, ru_ixrss := 0, ru_isrss := 0, ru_majflt := 0 }, hasWin32 := false, win32 := { pagefileUsage := 0, workingSetSize := 0, pageFaultCount := 0 } }
        1 = Except.ok Strategy.resource :=
  (claim_c2
      { procFs := none, pagesize := 4096, ps := none, hasResource := true, rusage := { ru_maxrss := 5, ru_idrss := 0, ru_ixrss := 0, ru_isrss := 0, ru_majflt := 0 }, hasWin32 := false, win32 := { pagefileUsage := 0, workingSetSize := 0, pageFaultCount := 0 } }
      1 (initInfo 1) (initInfo 1) (initInfo 1) false false rfl rfl).1 rfl

/-- C3: with readable stat/status sources, the filesystem strategy sets
`vsz` to the 23rd whitespace-delimited stat field, `rss` to the 24th
field times the page size, `pagefaults` to the 12th field, and for a
status line `VmData: <N> kB` sets `data_segment` to N×1024 and appends
("Size of data segment", trimmed raw value) to `os_specific`. -/
theorem claim_c3 (pg pid : Int) (stat l val t22 t23 t11 tok : String)
    (v r f n : Int)
    (h22 : (pySplit stat)[22]? = some t22) (hv : pyInt t22 = some v)
    (h23 : (pySplit stat)[23]? = some t23) (hr : pyInt t23 = some r)
    (h11 : (pySplit stat)[11]? = some t11) (hf : pyInt t11 = some f)
    (hsplit : pySplitColon l = ["VmData", val])
    (htok : (pySplit val).head? = some tok) (hn : pyInt tok = some n) :
    procUpdate pg (initInfo pid) (some { stat := stat, statusLines := [l] }) =
      Except.ok ({ initInfo pid with vsz := v, rss := r * pg, pagefaults := f, data_segment := n * 1024, os_specific := [("Size of data segment", pyStrip val)] }, true) := by
  simp only [procUpdate]
  rw [h22]
  simp only [orErr, except_bind_ok]
  rw [hv]
  simp only [orErr, except_bind_ok]
  rw [h23]
  simp only [orErr, except_bind_ok]
  rw [hr]
  simp only [orErr, except_bind_ok]
  rw [h11]
  simp only [orErr, except_bind_ok]
  rw [hf]
  simp only [orErr, except_bind_ok]
  simp only [List.foldlM_cons, List.foldlM_nil]
  simp only [applyStatusLine, hsplit]
  rw [if_pos trivial]
  simp only [size_in_bytes, htok, orErr, except_bind_ok]
  rw [hn]
  simp only [orErr, except_bind_ok]
  have hkm : key_map "VmData" = some "Size of data segment" := by decide
  rw [hkm]
  rfl

theorem claim_c3_witness :
    procUpdate 4096 (initInfo 1)
        (some { stat := "0 1 2 3 4 5 6 7 8 9 10 7 12 13 14 15 16 17 18 19 20 21 99 5", statusLines := ["VmData: 1234 kB"] }) =
      Except.ok ({ initInfo 1 with vsz := 99, rss := 5 * 4096, pagefaults := 7, data_segment := 1234 * 1024, os_specific := [("Size of data segment", "1234 kB")] }, true) :=
  claim_c3 4096 1 "0 1 2 3 4 5 6 7 8 9 10 7 12 13 14 15 16 17 18 19 20 21 99 5"
    "VmData: 1234 kB" " 1234 kB" "99" "5" "7" "1234" 99 5 7 1234
    (by decide) (by decide) (by decide) (by decide) (by decide) (by decide)
    (by decide) (by decide) (by decide)

/-- C7: `is_available()` returns the same boolean as constructing a
snapshot and reading its `available` flag under the bound strategy, and
the call leaves the strategy binding unchanged. -/
theorem claim_c7 (strat : Strategy) (env : Env) (pid : Int) :
    isAvailable strat env pid = (mkSnapshot strat env pid).map Snapshot.available
    ∧ isAvailableCall strat env pid =
        (isAvailable strat env pid).map (fun b => (b, strat)) := by
  refine ⟨?_, rfl⟩
  rcases h1 : stratUpdate strat env (initInfo pid) with err | ⟨i1, b1⟩
  · simp [isAvailable, mkSnapshot, h1, Except.map, except_bind_err]
  · have hsnd := stratUpdate_snd_indep strat env (initInfo pid) i1
    rw [h1] at hsnd
    rcases h2 : stratUpdate strat env i1 with err2 | ⟨i2, b2⟩
    · rw [h2] at hsnd
      simp [Except.map] at hsnd
    · rw [h2] at hsnd
      simp only [Except.map] at hsnd
      injection hsnd with hb
      simp [isAvailable, mkSnapshot, h1, h2, Except.map, hb, except_bind_ok,
        except_bind_err]

